import Mathlib

/-!
Verification model of `src/python/pysnips/ml/eventlogger.py` (`EventLogger`).

The external `tfevents` serialization module is an opaque boundary (spec §6):
each logical record handed to it yields one self-delimited byte string that is
appended verbatim to the logger's byte buffer.  We therefore model the byte
buffer (and the on-disk file) as a list of structured records, one list element
per serialized record, and the enum codes and media blobs of the external
module symbolically.  All logger operations below are direct translations of
the corresponding Python methods; state mutated in place by Python is threaded
explicitly.
-/

namespace EvLog

/-- String used by `EventLogger.__init__` as the `fileVersion` of the header
event (`"brain.Event:2"` in the source). -/
def fileVersionStr : String := "brain.Event:2"

/-- Message used by `EventLogger.__init__` for the restart session marker. -/
def restartingStr : String := "Restarting..."

/-- The hierarchical tag separator, `"/"` in the source. -/
def sepStr : String := "/"

/-- Session status enum of the external `tfevents` module (opaque boundary);
only `START` is used by the logger core itself, in `__init__`. -/
inductive TfSessionStatus where
  | START
  | STOP
  | CHECKPOINT
  | UNKNOWN
deriving DecidableEq, Repr

/-- Descriptive metadata attached to a value
(`convert_metadata(displayName, description, pluginName, pluginContent)`).
Its internal structure is opaque (external `tfevents` module). -/
structure TfMetadata where
  displayName : Option String
  description : Option String
  pluginName : Option String
  pluginContent : Option String
deriving DecidableEq, Repr

/-- Color-space codes of the external `tfevents` module; the numeric values
are opaque enum codes, only their distinctness matters here. -/
def TfColorSpace.GRAYSCALE : Int := 1

/-- Color-space code for grayscale plus alpha. -/
def TfColorSpace.GRAYSCALE_ALPHA : Int := 2

/-- Color-space code for RGB. -/
def TfColorSpace.RGB : Int := 3

/-- Color-space code for RGBA. -/
def TfColorSpace.RGBA : Int := 4

/-- Typed payload of one logged value.  Scalars are modelled over `Int`
(the `float(scalar)` conversion is part of the opaque serialization
boundary); image blobs as lists of bytes. -/
inductive TfPayload where
  | scalar (v : Int)
  | image (h w : Int) (csc : Int) (blob : List Nat)
  | text (s : String)
  | tensor (repr : String)
  | histogram (repr : String)
  | audio (sampleRate : Int) (numChannels : Int) (lengthFrames : Int) (blob : List Nat)
deriving DecidableEq, Repr

/-- One entry of the pending value batch: a `TfValue` of the external module,
i.e. a payload plus optional metadata (`del val.metadata` in the source is
modelled as setting the metadata to `none`). -/
structure TfValue where
  payload : TfPayload
  metadata : Option TfMetadata
deriving DecidableEq, Repr

/-- One serialized record of the event stream.  In the source this is an
opaque byte string produced by `.asEvent(step=...).asRecordByteArray()`;
here it is kept structured so that properties of the stream are statable. -/
inductive TfRecord where
  | header (step : Int) (fileVersion : String)
  | sessionLog (status : TfSessionStatus) (msg : Option String) (path : Option String) (step : Int)
  | summary (values : List (String × TfValue)) (step : Int)
  | logMessage (msg : String) (level : Nat) (step : Int)
deriving DecidableEq, Repr

/-- The mutable state of one `EventLogger` instance, plus the contents of its
output file.  `metadata` is the set of tags ever recorded (`self._metadata`),
`values` the pending value batch (`self._values`, a Python dict, modelled as
an insertion-ordered association list), `bytebuffer` the in-memory buffer
(`self.__bytebuffer`), `file` the bytes written to the log file so far,
`daemonSpawned` whether `_spawnDaemonThread` has started the flush daemon. -/
structure LoggerState where
  logDir : String
  currentStep : Int
  flushSecs : Option Int
  metadata : List String
  values : List (String × TfValue)
  bytebuffer : List TfRecord
  file : List TfRecord
  isExiting : Bool
  daemonSpawned : Bool
deriving DecidableEq, Repr

/-- `EventLogger.__init__(logDir, step, flushSecs)`: sets the current step to
`0 if step is None else int(step)`, appends the header event directly to the
byte buffer, and — whenever `step is not None` — a `TfSessionLog(START,
"Restarting...", logDir)` record.  (The filesystem preconditions
`os.path.isdir`/`not os.path.isfile` are outside the model.) -/
def initLogger (logDir : String) (creationStep : Option Int) (flushSecs : Option Int) :
    LoggerState :=
  let cur : Int := match creationStep with | none => 0 | some k => k
  { logDir := logDir
    currentStep := cur
    flushSecs := flushSecs
    metadata := []
    values := []
    bytebuffer :=
      TfRecord.header cur fileVersionStr ::
        (match creationStep with
         | some _ => [TfRecord.sessionLog TfSessionStatus.START (some restartingStr)
                        (some logDir) cur]
         | none => [])
    file := []
    isExiting := false
    daemonSpawned := false }

/-- Insertion into a Python dict: replace the value in place if the key is
present, else append the binding at the end (insertion order preserved). -/
def dictInsert (tag : String) (v : TfValue) : List (String × TfValue) → List (String × TfValue)
  | [] => [(tag, v)]
  | p :: rest => if p.1 = tag then (p.1, v) :: rest else p :: dictInsert tag v rest

/-- The metadata-stripping rule of `recordValue`: `if hasattr(val, "metadata")
and tag in self._metadata: del val.metadata`. -/
def stripSeenMetadata (seen : List String) (tag : String) (v : TfValue) : TfValue :=
  if tag ∈ seen then { v with metadata := none } else v

/-- `EventLogger.recordValue(tag, val)`: strip the metadata when the tag was
seen before, store the value in the batch, mark the tag as seen. -/
def recordValue (tag : String) (v : TfValue) (s : LoggerState) : LoggerState :=
  { s with
    values := dictInsert tag (stripSeenMetadata s.metadata tag v) s.values
    metadata := if tag ∈ s.metadata then s.metadata else tag :: s.metadata }

/-- `EventLogger.appendBuffer(b)`: concatenate onto the byte buffer and lazily
spawn the flush daemon (`_spawnDaemonThread`: only when `flushSecs` is not
`None`, at most once). -/
def appendBuffer (r : TfRecord) (s : LoggerState) : LoggerState :=
  { s with
    bytebuffer := s.bytebuffer ++ [r]
    daemonSpawned := s.daemonSpawned || s.flushSecs.isSome }

/-- `EventLogger.appendSummary()`: if the batch is non-empty, serialize all
pending values as one summary record tagged with the current step, append it
to the byte buffer and empty the batch; no-op on an empty batch. -/
def appendSummary (s : LoggerState) : LoggerState :=
  if s.values.isEmpty then s
  else { appendBuffer (TfRecord.summary s.values s.currentStep) s with values := [] }

/-- `EventLogger.__maybeForceAppend(tag)`: commit the batch first when `tag`
already has a pending entry. -/
def maybeForceAppend (tag : String) (s : LoggerState) : LoggerState :=
  if tag ∈ s.values.map Prod.fst then appendSummary s else s

/-- The locked body shared by every `log*` value method:
`self.__maybeForceAppend(tag).recordValue(tag, val)`. -/
def record (tag : String) (v : TfValue) (s : LoggerState) : LoggerState :=
  recordValue tag v (maybeForceAppend tag s)

/-- The records `appendSummary` adds to the byte buffer from state `s`:
nothing on an empty batch, otherwise one summary tagged with the current
step.  (Characterization helper; see `appendSummary_eq`.) -/
def drainRecords (s : LoggerState) : List TfRecord :=
  if s.values.isEmpty then [] else [TfRecord.summary s.values s.currentStep]

/-- `EventLogger.flush()` with fault injection on the file write: first
`appendSummary()`, then, when the buffer is non-empty, append it to the file
and empty it.  `ioFails` injects an I/O error raised by the
`open`/`write`/`flush` calls; the error carries the state left behind (the
batch already drained, the buffer *not* emptied, since the exception fires
before `self.__bytebuffer = bytearray()`). -/
def flushAttempt (ioFails : Bool) (s : LoggerState) : Except LoggerState LoggerState :=
  let s₁ := appendSummary s
  if s₁.bytebuffer.isEmpty then Except.ok s₁
  else if ioFails then Except.error s₁
  else Except.ok { s₁ with file := s₁.file ++ s₁.bytebuffer, bytebuffer := [] }

/-- `EventLogger.flush()` on the error-free path. -/
def flush (s : LoggerState) : LoggerState :=
  match flushAttempt false s with
  | Except.ok t => t
  | Except.error t => t

/-- Outcome of one tick of the flush daemon (`_daemonRun` loop body). -/
inductive DaemonFate where
  | nextTick (s : LoggerState)
  | stopped (s : LoggerState)
  | killed (s : LoggerState)
deriving DecidableEq, Repr

/-- One iteration of `_daemonRun` after the sleep: take the lock, `flush()`,
then check `_isExiting` (clean termination deletes `_daemonThread`).  There
is **no** `try`/`except` around the `flush()` call in the source: an
exception raised by it propagates out of the loop and terminates the daemon
thread (`killed`). -/
def daemonTick (ioFails : Bool) (s : LoggerState) : DaemonFate :=
  match flushAttempt ioFails s with
  | Except.error sExc => DaemonFate.killed sExc
  | Except.ok s₁ =>
    if s₁.isExiting then DaemonFate.stopped { s₁ with daemonSpawned := false }
    else DaemonFate.nextTick s₁

/-- Whether a tick outcome proceeds to the next periodic tick. -/
def DaemonFate.continuesQ : DaemonFate → Bool
  | DaemonFate.nextTick _ => true
  | _ => false

/-- Whether a tick outcome killed the daemon thread via an uncaught error. -/
def DaemonFate.killedQ : DaemonFate → Bool
  | DaemonFate.killed _ => true
  | _ => false

/-- `EventLogger.step(step)`:  with `step=None`, commit the batch
(`appendSummary`, under the old step) and increment the counter; with an
explicit `step=k`, perform a full `flush()` and then set the counter to
`int(k)` (no monotonicity check). -/
def stepCall (stepArg : Option Int) (s : LoggerState) : LoggerState :=
  match stepArg with
  | none =>
    let s₁ := appendSummary s
    { s₁ with currentStep := s₁.currentStep + 1 }
  | some k =>
    let s₁ := flush s
    { s₁ with currentStep := k }

/-- `EventLogger.logMessage(msg, level)`: `appendSummary()`, append the
log-message record at the current step, then a full synchronous `flush()` —
unconditionally. -/
def logMessage (msg : String) (level : Nat) (s : LoggerState) : LoggerState :=
  let s₁ := appendSummary s
  let s₂ := appendBuffer (TfRecord.logMessage msg level s₁.currentStep) s₁
  flush s₂

/-- `EventLogger.logSession(status, msg, path)`: `appendSummary()`, append the
session-log record at the current step, then a full synchronous `flush()` —
unconditionally. -/
def logSession (status : TfSessionStatus) (msg path : Option String) (s : LoggerState) :
    LoggerState :=
  let s₁ := appendSummary s
  let s₂ := appendBuffer (TfRecord.sessionLog status msg path s₁.currentStep) s₁
  flush s₂

/-- Collapse runs of consecutive separators (`re.sub("/+", "/", tag)`); the
boolean tracks whether the previously emitted character was a separator. -/
def collapseAux : List Char → Bool → List Char
  | [], _ => []
  | c :: cs, prevSep =>
    if c == '/' then
      if prevSep then collapseAux cs true else c :: collapseAux cs true
    else c :: collapseAux cs false

/-- `re.sub("/+", "/", tag)` on a string. -/
def collapseSlashes (s : String) : String := ⟨collapseAux s.data false⟩

/-- Whether a character list contains two adjacent separators. -/
def hasDoubleSep : List Char → Bool
  | c :: c2 :: cs => (c == '/' && c2 == '/') || hasDoubleSep (c2 :: cs)
  | _ => false

/-- Python's `"/".join(parts)`. -/
def joinSep : List String → String
  | [] => ""
  | [x] => x
  | x :: xs => x ++ sepStr ++ joinSep xs

/-- `tag.startswith("/")`: whether the first character is the separator. -/
def startsWithSep (tag : String) : Bool :=
  match tag.data with
  | c :: _ => c == '/'
  | [] => false

/-- `EventLogger.getFullTag(tag)` as a function of the calling thread's scope
path: `assert not tag.startswith("/")` (modelled as `none`), collapse runs of
separators in the tag, then join the scope path with the tag. -/
def getFullTag (scopePath : List String) (tag : String) : Option String :=
  if startsWithSep tag then none
  else some (joinSep (scopePath ++ [collapseSlashes tag]))

/-- Validation of one scope name in `tagscope` (Python-2 semantics, where the
source is self-consistent): `assert groupName != ""` and
`assert "/" not in groupName`. -/
def validName (n : String) : Bool :=
  !(n.data == []) && !(n.data.contains '/')

/-- The entry half of `tagscope(*groupNames)`: validate **all** names first
(an assertion failure pushes nothing), then push them in order. -/
def tagscopeEnter (names stack : List String) : Option (List String) :=
  if names.all validName then some (stack ++ names) else none

/-- Result of running a `tagscope` block to completion: `ok` when the body
returned normally and the epilogue ran, `exc` when an exception propagated
out, carrying the scope stack left behind. -/
inductive ScopeResult where
  | ok (stack : List String)
  | exc (stack : List String)
deriving DecidableEq, Repr

/-- A full `with logger.tagscope(*names)` block around a body that either
returns normally (`bodyRaises = false`) or raises.  The generator has **no**
`try`/`finally` around its `yield`: when the body raises, the exception is
thrown into the generator at the yield point and the pop loop after it never
runs, so the pushed names stay on the stack. -/
def tagscopeRun (names stack : List String) (bodyRaises : Bool) : ScopeResult :=
  match tagscopeEnter names stack with
  | none => ScopeResult.exc stack
  | some entered =>
    if bodyRaises then ScopeResult.exc entered
    else ScopeResult.ok (names.foldl (fun st _ => st.dropLast) entered)

/-- Result of a `log*` call: either a normal return or a raised exception,
in both cases carrying the logger state after the call. -/
inductive CallResult where
  | ok (s : LoggerState)
  | raised (err : String) (s : LoggerState)
deriving DecidableEq, Repr

/-- Whether a call raised. -/
def CallResult.raisedQ : CallResult → Bool
  | CallResult.raised _ _ => true
  | _ => false

/-- The logger state after a call, normal or exceptional. -/
def CallResult.state : CallResult → LoggerState
  | CallResult.ok s => s
  | CallResult.raised _ s => s

/-- Exception name raised by a failed `assert`. -/
def errAssert : String := "AssertionError"

/-- Exception raised by `int(None)` in the raw-image calling convention. -/
def errTypeConv : String := "TypeError"

/-- `ValueError("Invalid image specification!")` for a bad channel count. -/
def errBadImage : String := "Invalid image specification!"

/-- `ValueError("Unable to interpret image arguments!")` for an unsupported
image payload type. -/
def errNoInterp : String := "Unable to interpret image arguments!"

/-- `EventLogger.logScalar(tag, scalar, ...)`: resolve the tag (the
`getFullTag` assertion fires before any state is touched), build the value,
then the locked `__maybeForceAppend(tag).recordValue(tag, val)`. -/
def logScalarRun (scopePath : List String) (tag : String) (scalar : Int)
    (md : Option TfMetadata) (s : LoggerState) : CallResult :=
  match getFullTag scopePath tag with
  | none => CallResult.raised errAssert s
  | some ftag => CallResult.ok (record ftag ⟨TfPayload.scalar scalar, md⟩ s)

/-- The `image` argument of `logImage`: a pre-encoded image file with its
(mandatory) color space / width / height, a numpy array shaped `(C, H, W)`,
or a value of any other type. -/
inductive ImageArg where
  | raw (data : List Nat) (csc : Option Int) (w : Option Int) (h : Option Int)
  | array (c h w : Nat) (pixels : List Nat)
  | other
deriving DecidableEq, Repr

/-- The channel-count dispatch of `logImage`: 1/2/3/4 channels map to
grayscale / grayscale+alpha / RGB / RGBA and a PIL mode string; any other
count raises `ValueError("Invalid image specification!")`. -/
def channelInterp (c : Nat) : Option (Int × String) :=
  if c = 1 then some (TfColorSpace.GRAYSCALE, "L")
  else if c = 2 then some (TfColorSpace.GRAYSCALE_ALPHA, "LA")
  else if c = 3 then some (TfColorSpace.RGB, "RGB")
  else if c = 4 then some (TfColorSpace.RGBA, "RGBA")
  else none

/-- The external PIL PNG transcoder (opaque media boundary, spec §6): it
deterministically produces an encoded blob from the mode, dimensions and
normalized pixel content; modelled as carrying the pixel content through. -/
def encodePNG (mode : String) (h w : Nat) (pixels : List Nat) : List Nat :=
  let _ := mode
  let _ := h
  let _ := w
  pixels

/-- `EventLogger.logImage(tag, image, csc, h, w, ...)`: resolve the tag, then
dispatch on the image argument.  Raw convention: `int()` of a missing
`csc`/`w`/`h` raises before any state is touched.  Array convention: the
channel count picks the color space or raises.  Any other payload type
raises.  Only a successful conversion reaches the locked
`__maybeForceAppend(tag).recordValue(tag, val)`. -/
def logImageRun (scopePath : List String) (tag : String) (img : ImageArg)
    (md : Option TfMetadata) (s : LoggerState) : CallResult :=
  match getFullTag scopePath tag with
  | none => CallResult.raised errAssert s
  | some ftag =>
    match img with
    | ImageArg.raw data cscArg wArg hArg =>
      match cscArg, wArg, hArg with
      | some csc, some w, some h =>
        CallResult.ok (record ftag ⟨TfPayload.image h w csc data, md⟩ s)
      | _, _, _ => CallResult.raised errTypeConv s
    | ImageArg.array c h w pixels =>
      match channelInterp c with
      | some (csc, mode) =>
        CallResult.ok (record ftag
          ⟨TfPayload.image (Int.ofNat h) (Int.ofNat w) csc (encodePNG mode h w pixels), md⟩ s)
      | none => CallResult.raised errBadImage s
    | ImageArg.other => CallResult.raised errNoInterp s

/-- The state visible to one thread through `EventLogger.__tls`
(`threading.local()` at class level, line 478).  In `_tagScopePath` the
source reads `self.__tls`, which Python name-mangles to
`self._EventLogger__tls`; since no instance defines that attribute, lookup
falls through to the *class* attribute — one `threading.local` shared by
every instance, `NullEventLogger` included (it overrides neither `tagscope`
nor `getFullTag` nor `_tagScopePath`).  The per-instance `self._tls` created
in `__init__` is never read.  Hence a thread has exactly one tag scope
stack, not one per logger. -/
structure ThreadCtx where
  scopeStack : List String
deriving DecidableEq, Repr

/-- `logger.tagscope(*names)` entry as invoked through a particular logger
instance `inst`: the instance is ignored because `_tagScopePath` resolves to
the class-level thread-local stack. -/
def tagscopeEnterOn (inst : Nat) (names : List String) (tc : ThreadCtx) : Option ThreadCtx :=
  let _ := inst
  (tagscopeEnter names tc.scopeStack).map (fun st => { scopeStack := st })

/-- `logger.getFullTag(tag)` as invoked through a particular logger instance
`inst`: likewise independent of the instance. -/
def getFullTagOn (inst : Nat) (tc : ThreadCtx) (tag : String) : Option String :=
  let _ := inst
  getFullTag tc.scopeStack tag

/-- Whether a record is a session-log record. -/
def TfRecord.isSessionLogQ : TfRecord → Bool
  | TfRecord.sessionLog _ _ _ _ => true
  | _ => false

/-- Whether the byte buffer contains a restart session marker. -/
def hasRestartMarker (s : LoggerState) : Bool :=
  s.bytebuffer.any TfRecord.isSessionLogQ

/-- Number of entries for a given tag in a summary's value list. -/
def countKey (tag : String) (d : List (String × TfValue)) : Nat :=
  (d.filter (fun p => p.1 == tag)).length

/-- A concrete logger state with one pending value and an empty byte buffer,
as reached after one `logScalar` call on a fresh logger followed by a flush
daemon start; used as a concrete test state. -/
def exPendingState : LoggerState :=
  { logDir := "logs"
    currentStep := 3
    flushSecs := some 60
    metadata := ["t"]
    values := [(("t" : String), ⟨TfPayload.scalar 1, none⟩)]
    bytebuffer := []
    file := []
    isExiting := false
    daemonSpawned := true }

end EvLog

namespace EvLog

/-- Inserting a key not yet in a dict appends the binding at the end. -/
theorem dictInsert_of_not_mem (tag : String) (v : TfValue) (d : List (String × TfValue))
    (h : tag ∉ d.map Prod.fst) : dictInsert tag v d = d ++ [(tag, v)] := by
  induction d with
  | nil => rfl
  | cons p rest ih =>
    simp only [List.map_cons, List.mem_cons] at h
    push_neg at h
    simp only [dictInsert, if_neg (Ne.symm h.1), List.cons_append, ih h.2]

/-- Characterization of `appendSummary` as a single state update. -/
theorem appendSummary_eq (s : LoggerState) :
    appendSummary s =
      { s with
        bytebuffer := s.bytebuffer ++ drainRecords s
        values := []
        daemonSpawned := s.daemonSpawned || (!s.values.isEmpty && s.flushSecs.isSome) } := by
  by_cases h : s.values.isEmpty
  · have hv : s.values = [] := List.isEmpty_iff.mp h
    cases s
    simp_all [appendSummary, drainRecords]
  · simp [appendSummary, appendBuffer, drainRecords, h]

/-- Characterization of the error-free `flush`: the batch is drained under the
current step, the whole buffer goes to the file, the buffer and batch end
empty, and nothing else changes. -/
theorem flush_eq (s : LoggerState) :
    (flush s).file = s.file ++ (s.bytebuffer ++ drainRecords s)
  ∧ (flush s).bytebuffer = []
  ∧ (flush s).values = []
  ∧ (flush s).currentStep = s.currentStep
  ∧ (flush s).logDir = s.logDir
  ∧ (flush s).isExiting = s.isExiting := by
  have hs := appendSummary_eq s
  by_cases h : (s.bytebuffer ++ drainRecords s) = []
  · simp [flush, flushAttempt, hs, h]
  · simp [flush, flushAttempt, hs, h]

/-- Folding `dropLast` once per element of a list of the same length as the
appended suffix removes exactly that suffix. -/
theorem foldl_dropLast_fixed (m : List String) : ∀ (M l : List String), M.length = m.length →
    List.foldl (fun st _ => st.dropLast) (l ++ M) m = l := by
  induction m with
  | nil =>
    intro M l h
    have hM : M = [] := List.length_eq_zero.mp h
    simp [hM]
  | cons b m' ih =>
    intro M l h
    cases M with
    | nil => simp at h
    | cons a M' =>
      have hne : (a :: M') ≠ ([] : List String) := by simp
      have hd : (l ++ a :: M').dropLast = l ++ (a :: M').dropLast :=
        List.dropLast_append_of_ne_nil l hne
      simp only [List.foldl_cons]
      rw [hd]
      apply ih
      rw [List.length_dropLast]
      simp only [List.length_cons] at h ⊢
      omega

/-- A `tagscope` block whose body returns normally restores the stack. -/
theorem tagscopeRun_normal (names stack : List String) (h : names.all validName = true) :
    tagscopeRun names stack false = ScopeResult.ok stack := by
  simp [tagscopeRun, tagscopeEnter, h, foldl_dropLast_fixed names names stack rfl]

/-- After collapsing, the output never *starts* with a separator when the
previous emitted character was one. -/
theorem collapseAux_true_ne_sep : ∀ cs l, collapseAux cs true ≠ '/' :: l := by
  intro cs
  induction cs with
  | nil => intro l h; exact absurd h (by simp [collapseAux])
  | cons c cs ih =>
    intro l h
    by_cases hc : c = '/'
    · subst hc
      simp only [collapseAux, beq_self_eq_true, if_true] at h
      exact ih l h
    · simp only [collapseAux, beq_iff_eq, if_neg hc] at h
      exact hc (List.cons.injEq .. ▸ h).1

/-- The collapsed output contains no two adjacent separators. -/
theorem hasDoubleSep_collapseAux : ∀ cs b, hasDoubleSep (collapseAux cs b) = false := by
  intro cs
  induction cs with
  | nil => intro b; rfl
  | cons c cs ih =>
    intro b
    by_cases hc : c = '/'
    · subst hc
      cases b with
      | true => simpa [collapseAux] using ih true
      | false =>
        simp only [collapseAux, beq_self_eq_true, if_true, if_false]
        rcases htl : collapseAux cs true with _ | ⟨c2, cs2⟩
        · simp [hasDoubleSep]
        · have hc2 : c2 ≠ '/' := by
            intro e; subst e; exact collapseAux_true_ne_sep cs cs2 htl
          have htail := ih true
          rw [htl] at htail
          simp [hasDoubleSep, hc2, htail]
    · rcases htl : collapseAux cs false with _ | ⟨c2, cs2⟩
      · simp [collapseAux, hc, hasDoubleSep, htl]
      · have htail := ih false
        rw [htl] at htail
        simp [collapseAux, hc, hasDoubleSep, htl, htail]

/-- Collapsing only removes separator characters: the non-separator content
is untouched. -/
theorem collapseAux_filter : ∀ cs b,
    (collapseAux cs b).filter (fun c => !(c == '/')) = cs.filter (fun c => !(c == '/')) := by
  intro cs
  induction cs with
  | nil => intro b; rfl
  | cons c cs ih =>
    intro b
    by_cases hc : c = '/'
    · subst hc
      cases b <;> simp [collapseAux, List.filter_cons, ih]
    · simp [collapseAux, hc, List.filter_cons, ih]

/-- Recording a tag with no pending entry simply appends it to the batch and
marks it seen. -/
theorem record_of_not_pending (tag : String) (v : TfValue) (s : LoggerState)
    (h : tag ∉ s.values.map Prod.fst) :
    record tag v s =
      { s with
        values := s.values ++ [(tag, stripSeenMetadata s.metadata tag v)]
        metadata := if tag ∈ s.metadata then s.metadata else tag :: s.metadata } := by
  simp [record, maybeForceAppend, h, recordValue, dictInsert_of_not_mem _ _ _ h]

end EvLog

namespace EvLog

/-- Claim C3: every `logMessage(text, level)` / `logSession(status, msg?,
path?)` call first drains the pending value batch into a summary record, then
appends the message/session record, then performs a full synchronous flush to
disk — unconditionally, for every configured flush interval (the interval is a
field of `s` and is universally quantified here) — so the on-disk file gains
the drained records plus the new record and strictly grows without any
explicit `flush()` call. -/
theorem logMessage_logSession_force_flush (s : LoggerState) (msg : String) (level : Nat)
    (status : TfSessionStatus) (m p : Option String) :
    (logMessage msg level s).file
        = s.file ++ (s.bytebuffer ++ drainRecords s)
            ++ [TfRecord.logMessage msg level s.currentStep]
  ∧ (logMessage msg level s).bytebuffer = []
  ∧ (logMessage msg level s).values = []
  ∧ s.file.length < (logMessage msg level s).file.length
  ∧ (logSession status m p s).file
        = s.file ++ (s.bytebuffer ++ drainRecords s)
            ++ [TfRecord.sessionLog status m p s.currentStep]
  ∧ (logSession status m p s).bytebuffer = []
  ∧ (logSession status m p s).values = []
  ∧ s.file.length < (logSession status m p s).file.length := by
  have key : ∀ r : TfRecord,
      (flush (appendBuffer r (appendSummary s))).file
          = s.file ++ (s.bytebuffer ++ drainRecords s) ++ [r]
        ∧ (flush (appendBuffer r (appendSummary s))).bytebuffer = []
        ∧ (flush (appendBuffer r (appendSummary s))).values = [] := by
    intro r
    have hT1 : (appendBuffer r (appendSummary s)).file = s.file := by
      simp [appendBuffer, appendSummary_eq]
    have hT2 : (appendBuffer r (appendSummary s)).bytebuffer
        = (s.bytebuffer ++ drainRecords s) ++ [r] := by
      simp [appendBuffer, appendSummary_eq]
    have hT3 : (appendBuffer r (appendSummary s)).values = [] := by
      simp [appendBuffer, appendSummary_eq]
    have hT4 : drainRecords (appendBuffer r (appendSummary s)) = [] := by
      simp [drainRecords, hT3]
    obtain ⟨f1, f2, f3, -, -, -⟩ := flush_eq (appendBuffer r (appendSummary s))
    rw [hT1, hT2, hT4] at f1
    refine ⟨?_, f2, f3⟩
    rw [f1]
    simp
  have hstep : (appendSummary s).currentStep = s.currentStep := by
    rw [appendSummary_eq]
  have hM : logMessage msg level s
      = flush (appendBuffer (TfRecord.logMessage msg level s.currentStep) (appendSummary s)) := by
    rw [logMessage, hstep]
  have hS : logSession status m p s
      = flush (appendBuffer (TfRecord.sessionLog status m p s.currentStep) (appendSummary s)) := by
    rw [logSession, hstep]
  obtain ⟨m1, m2, m3⟩ := key (TfRecord.logMessage msg level s.currentStep)
  obtain ⟨s1, s2, s3⟩ := key (TfRecord.sessionLog status m p s.currentStep)
  rw [hM, hS]
  refine ⟨m1, m2, m3, ?_, s1, s2, s3, ?_⟩
  · rw [m1]; simp
  · rw [s1]; simp

/-- Claim C4: `setStep(k)` — `step()` with an explicit argument — first drains
the pending value batch as a summary tagged with the *old* step and durably
writes the entire byte buffer to the log file, and only afterwards sets the
step counter to `k`; `k` is universally quantified, so this holds in
particular for `k ≤ currentStep`: no monotonicity is enforced. -/
theorem setStep_flush_then_set (s : LoggerState) (k : Int) :
    (stepCall (some k) s).currentStep = k
  ∧ (stepCall (some k) s).file = s.file ++ (s.bytebuffer ++ drainRecords s)
  ∧ (stepCall (some k) s).bytebuffer = []
  ∧ (stepCall (some k) s).values = []
  ∧ drainRecords s
      = (if s.values.isEmpty then [] else [TfRecord.summary s.values s.currentStep]) := by
  obtain ⟨f1, f2, f3, -, -, -⟩ := flush_eq s
  exact ⟨rfl, f1, f2, f3, rfl⟩

/-- Claim C5: `advance()` — `step()` with no explicit argument — drains the
pending value batch into a summary record tagged with the step current
*before* the call, then increments the step counter by exactly one; with an
empty pending batch no record is appended but the counter still increments;
no disk write happens and pending values are never tagged with the new
step. -/
theorem advance_drain_then_increment (s : LoggerState) :
    (stepCall none s).currentStep = s.currentStep + 1
  ∧ (stepCall none s).bytebuffer
      = s.bytebuffer
          ++ (if s.values.isEmpty then [] else [TfRecord.summary s.values s.currentStep])
  ∧ (stepCall none s).values = []
  ∧ (stepCall none s).file = s.file := by
  have h := appendSummary_eq s
  refine ⟨?_, ?_, ?_, ?_⟩ <;> simp [stepCall, h, drainRecords]

/-- Claim C8 (amended): construction immediately emits a header record into
the byte buffer, followed by a restart session marker exactly when a starting
step was explicitly supplied (`step is not None`) — regardless of whether that
step is zero — and no marker otherwise; nothing is written to disk yet. -/
theorem init_header_then_restart_iff_given (dir : String) (stepArg : Option Int)
    (fs : Option Int) :
    (initLogger dir stepArg fs).bytebuffer
      = TfRecord.header (stepArg.getD 0) fileVersionStr
          :: (match stepArg with
              | some k => [TfRecord.sessionLog TfSessionStatus.START (some restartingStr)
                             (some dir) k]
              | none => [])
  ∧ hasRestartMarker (initLogger dir stepArg fs) = stepArg.isSome
  ∧ (initLogger dir stepArg fs).file = [] := by
  cases stepArg <;> simp [initLogger, hasRestartMarker, TfRecord.isSessionLogQ]

/-- Claim C8 counterexample: a logger constructed with the explicit starting
step `0` — which is *not* nonzero — still gets a restart session marker in its
byte buffer, refuting "a restart marker exactly when constructed with a
nonzero starting step". -/
theorem init_restart_at_zero_step :
    (initLogger ("logs") (some 0) none).currentStep = 0
  ∧ hasRestartMarker (initLogger ("logs") (some 0) none) = true := by
  decide

end EvLog

namespace EvLog

/-- Claim C1: for `record(tag, v1)` then `record(tag, v2)` within the same
step and no intervening advance/flush (here: `tag` not already pending), the
second call first commits the batch holding `v1` as a summary record — so
after the two calls the buffer already holds the `v1` summary and `v2` is
pending — and once the pending batch is drained the buffer ends up holding two
summary records in call order, each with exactly one entry for `tag` (`v1`
then `v2`, metadata-stripped per the seen-tags rule); nothing is silently
discarded and the step never changes. -/
theorem record_same_tag_twice (s : LoggerState) (tag : String) (v1 v2 : TfValue)
    (h : tag ∉ s.values.map Prod.fst) :
    (appendSummary (record tag v2 (record tag v1 s))).bytebuffer
        = s.bytebuffer
          ++ [TfRecord.summary (s.values ++ [(tag, stripSeenMetadata s.metadata tag v1)])
                s.currentStep,
              TfRecord.summary [(tag, { v2 with metadata := none })] s.currentStep]
  ∧ (record tag v2 (record tag v1 s)).bytebuffer
        = s.bytebuffer
          ++ [TfRecord.summary (s.values ++ [(tag, stripSeenMetadata s.metadata tag v1)])
                s.currentStep]
  ∧ (record tag v2 (record tag v1 s)).values = [(tag, { v2 with metadata := none })]
  ∧ countKey tag (s.values ++ [(tag, stripSeenMetadata s.metadata tag v1)]) = 1
  ∧ countKey tag [(tag, { v2 with metadata := none })] = 1
  ∧ (appendSummary (record tag v2 (record tag v1 s))).values = []
  ∧ (appendSummary (record tag v2 (record tag v1 s))).currentStep = s.currentStep := by
  have hnil : s.values.filter (fun p => p.1 == tag) = [] := by
    refine List.filter_eq_nil_iff.mpr ?_
    intro p hp hpt
    exact h (List.mem_map.mpr ⟨p, hp, by simpa using hpt⟩)
  by_cases hm : tag ∈ s.metadata <;>
    simp [record, maybeForceAppend, recordValue, appendSummary, appendBuffer,
      stripSeenMetadata, dictInsert, dictInsert_of_not_mem, drainRecords, countKey,
      List.filter_append, hnil, List.isEmpty_iff, h, hm]

/-- Claim C1 witness: the two-record sequence at a concrete fresh state. -/
theorem record_same_tag_twice_witness :
    (("t" : String) ∉ (initLogger ("logs") none none).values.map Prod.fst)
  ∧ ((appendSummary (record ("t") ⟨TfPayload.scalar 2, none⟩
        (record ("t") ⟨TfPayload.scalar 1, none⟩ (initLogger ("logs") none none)))).bytebuffer
        = (initLogger ("logs") none none).bytebuffer
          ++ [TfRecord.summary ((initLogger ("logs") none none).values
                ++ [(("t" : String), stripSeenMetadata (initLogger ("logs") none none).metadata
                      ("t") ⟨TfPayload.scalar 1, none⟩)])
                (initLogger ("logs") none none).currentStep,
              TfRecord.summary [(("t" : String),
                { (⟨TfPayload.scalar 2, none⟩ : TfValue) with metadata := none })]
                (initLogger ("logs") none none).currentStep]
    ∧ (record ("t") ⟨TfPayload.scalar 2, none⟩
        (record ("t") ⟨TfPayload.scalar 1, none⟩ (initLogger ("logs") none none))).bytebuffer
        = (initLogger ("logs") none none).bytebuffer
          ++ [TfRecord.summary ((initLogger ("logs") none none).values
                ++ [(("t" : String), stripSeenMetadata (initLogger ("logs") none none).metadata
                      ("t") ⟨TfPayload.scalar 1, none⟩)])
                (initLogger ("logs") none none).currentStep]
    ∧ (record ("t") ⟨TfPayload.scalar 2, none⟩
        (record ("t") ⟨TfPayload.scalar 1, none⟩ (initLogger ("logs") none none))).values
        = [(("t" : String), { (⟨TfPayload.scalar 2, none⟩ : TfValue) with metadata := none })]
    ∧ countKey ("t") ((initLogger ("logs") none none).values
        ++ [(("t" : String), stripSeenMetadata (initLogger ("logs") none none).metadata
              ("t") ⟨TfPayload.scalar 1, none⟩)]) = 1
    ∧ countKey ("t") [(("t" : String),
        { (⟨TfPayload.scalar 2, none⟩ : TfValue) with metadata := none })] = 1
    ∧ (appendSummary (record ("t") ⟨TfPayload.scalar 2, none⟩
        (record ("t") ⟨TfPayload.scalar 1, none⟩ (initLogger ("logs") none none)))).values = []
    ∧ (appendSummary (record ("t") ⟨TfPayload.scalar 2, none⟩
        (record ("t") ⟨TfPayload.scalar 1, none⟩ (initLogger ("logs") none none)))).currentStep
        = (initLogger ("logs") none none).currentStep) :=
  ⟨by decide,
   record_same_tag_twice (initLogger ("logs") none none) ("t")
     ⟨TfPayload.scalar 1, none⟩ ⟨TfPayload.scalar 2, none⟩ (by decide)⟩

end EvLog

namespace EvLog

/-- Claim C6: tag resolution (`getFullTag`) rejects any tag starting with the
separator `"/"`, collapses every run of consecutive separators in the tag to
a single one (no double separator survives and the non-separator content is
untouched), and joins the calling thread's current scope stack with the tag
using the separator: for valid scope names `a` and `b`, resolving `"x"`
inside `enter(a, b)` yields `"a/b/x"`, and after the matching exit it yields
`"x"`. -/
theorem tag_resolution_spec (scopePath : List String) (a b badTag anyTag : String)
    (ha : validName a = true) (hb : validName b = true)
    (hbad : startsWithSep badTag = true) :
    getFullTag scopePath badTag = none
  ∧ hasDoubleSep (collapseSlashes anyTag).data = false
  ∧ (collapseSlashes anyTag).data.filter (fun c => !(c == '/'))
      = anyTag.data.filter (fun c => !(c == '/'))
  ∧ tagscopeEnter [a, b] [] = some [a, b]
  ∧ getFullTag [a, b] ("x") = some (a ++ sepStr ++ (b ++ sepStr ++ ("x")))
  ∧ tagscopeRun [a, b] [] false = ScopeResult.ok []
  ∧ getFullTag [] ("x") = some ("x") := by
  refine ⟨?_, hasDoubleSep_collapseAux anyTag.data false, collapseAux_filter anyTag.data false,
    ?_, ?_, ?_, ?_⟩
  · simp [getFullTag, hbad]
  · simp [tagscopeEnter, ha, hb]
  · have hcoll : collapseSlashes ("x") = "x" := by decide
    have hx : ¬ startsWithSep ("x") = true := by decide
    simp [getFullTag, hx, hcoll, joinSep]
  · exact tagscopeRun_normal [a, b] [] (by simp [ha, hb])
  · decide

/-- Claim C6 witness: concrete scope names and tags exercising every part of
the resolution contract. -/
theorem tag_resolution_spec_witness :
    validName ("aa") = true ∧ validName ("bb") = true
  ∧ startsWithSep ("/t") = true
  ∧ (getFullTag [] ("/t") = none
    ∧ hasDoubleSep (collapseSlashes ("a//b")).data = false
    ∧ (collapseSlashes ("a//b")).data.filter (fun c => !(c == '/'))
        = ("a//b" : String).data.filter (fun c => !(c == '/'))
    ∧ tagscopeEnter [("aa"), ("bb")] [] = some [("aa"), ("bb")]
    ∧ getFullTag [("aa"), ("bb")] ("x")
        = some (("aa") ++ sepStr ++ (("bb") ++ sepStr ++ ("x")))
    ∧ tagscopeRun [("aa"), ("bb")] [] false = ScopeResult.ok []
    ∧ getFullTag [] ("x") = some ("x")) :=
  ⟨by decide, by decide, by decide,
   tag_resolution_spec [] ("aa") ("bb") ("/t") ("a//b") (by decide) (by decide) (by decide)⟩

/-- Claim C7 (amended): entering a tag scope with valid names pushes exactly
those names in order; when the body returns normally, exactly those names are
popped again, restoring the stack to its pre-entry value; but when the body
raises, the pop loop after the `yield` is skipped — the names remain pushed
and the exception propagates, so the stack after an exceptional exit is the
entered stack, not the pre-entry one. -/
theorem tagscope_push_and_pop (names stack : List String)
    (h : names.all validName = true) :
    tagscopeEnter names stack = some (stack ++ names)
  ∧ tagscopeRun names stack false = ScopeResult.ok stack
  ∧ tagscopeRun names stack true = ScopeResult.exc (stack ++ names) := by
  refine ⟨by simp [tagscopeEnter, h], tagscopeRun_normal names stack h, ?_⟩
  simp [tagscopeRun, tagscopeEnter, h]

/-- Claim C7 witness: a concrete scope entry and both exit modes. -/
theorem tagscope_push_and_pop_witness :
    ([("g")] : List String).all validName = true
  ∧ (tagscopeEnter [("g")] [("s0")] = some ([("s0")] ++ [("g")])
    ∧ tagscopeRun [("g")] [("s0")] false = ScopeResult.ok [("s0")]
    ∧ tagscopeRun [("g")] [("s0")] true = ScopeResult.exc ([("s0")] ++ [("g")])) :=
  ⟨by decide, tagscope_push_and_pop [("g")] [("s0")] (by decide)⟩

/-- Claim C7 counterexample: with the valid scope name `"g"` and an initially
empty stack, a body that raises leaves `"g"` on the thread's scope stack —
the pop is skipped on exceptional exit, so the stack after exit (`["g"]`)
differs from the stack before entry (`[]`), refuting "popped ... regardless
of how the scope body terminates". -/
theorem tagscope_exc_leaks_scope :
    tagscopeRun [("g")] [] true = ScopeResult.exc [("g")]
  ∧ ([("g")] : List String) ≠ [] := by decide

/-- Claim C2 (amended): `_daemonRun` wraps no `try`/`except` around its
`flush()` call, so an error raised by the flush on a periodic tick is *not*
caught: it propagates out of the loop and terminates the scheduler thread
instead of letting it continue to the next tick.  Whenever data is pending (a
nonempty batch or buffer), a failing write on a tick kills the daemon,
leaving behind the drained-but-unwritten state. -/
theorem daemon_tick_uncaught_error (s : LoggerState)
    (h : ¬ s.values = [] ∨ ¬ s.bytebuffer = []) :
    daemonTick true s = DaemonFate.killed (appendSummary s)
  ∧ (daemonTick true s).continuesQ = false := by
  have hne : ¬ (appendSummary s).bytebuffer = [] := by
    rw [appendSummary_eq]
    rcases h with h | h
    · simp [drainRecords, List.isEmpty_iff, h]
    · simp [h]
  have hf : flushAttempt true s = Except.error (appendSummary s) := by
    simp [flushAttempt, List.isEmpty_iff, hne]
  refine ⟨?_, ?_⟩ <;> simp [daemonTick, hf, DaemonFate.continuesQ]

/-- Claim C2 witness: a failing flush on a tick over a concrete state with a
pending value kills the daemon. -/
theorem daemon_tick_uncaught_error_witness :
    (¬ exPendingState.values = [] ∨ ¬ exPendingState.bytebuffer = [])
  ∧ (daemonTick true exPendingState = DaemonFate.killed (appendSummary exPendingState)
    ∧ (daemonTick true exPendingState).continuesQ = false) :=
  ⟨Or.inl (by decide), daemon_tick_uncaught_error exPendingState (Or.inl (by decide))⟩

/-- Claim C2 counterexample: at a concrete state with one pending value, a
tick whose flush raises does **not** continue to the next periodic tick — the
daemon thread is killed — refuting "the error is caught ... and the scheduler
continues to its next periodic tick". -/
theorem daemon_tick_error_kills_scheduler :
    (daemonTick true exPendingState).continuesQ = false
  ∧ (daemonTick true exPendingState).killedQ = true := by decide

/-- Claim C9 (amended): a logging call whose tag starts with the separator,
an image call with an invalid channel count, and an image call with an
unsupported payload type each fail immediately and synchronously in the
calling thread and leave the logger state exactly unchanged — no partial
record is buffered.  An *empty* tag, however, is not rejected: `getFullTag`
asserts only on a leading separator, so an empty tag is resolved and recorded
like any other tag. -/
theorem malformed_inputs_fail_cleanly (scopePath : List String) (badTag okTag : String)
    (v : Int) (md : Option TfMetadata) (s : LoggerState)
    (c hh ww : Nat) (pixels : List Nat)
    (h1 : startsWithSep badTag = true)
    (h2 : startsWithSep okTag = false)
    (h3 : c ≠ 1) (h4 : c ≠ 2) (h5 : c ≠ 3) (h6 : c ≠ 4) :
    logScalarRun scopePath badTag v md s = CallResult.raised errAssert s
  ∧ logImageRun scopePath badTag (ImageArg.array c hh ww pixels) md s
      = CallResult.raised errAssert s
  ∧ logImageRun scopePath okTag (ImageArg.array c hh ww pixels) md s
      = CallResult.raised errBadImage s
  ∧ logImageRun scopePath okTag ImageArg.other md s = CallResult.raised errNoInterp s := by
  have hg : getFullTag scopePath badTag = none := by simp [getFullTag, h1]
  have hok : getFullTag scopePath okTag
      = some (joinSep (scopePath ++ [collapseSlashes okTag])) := by
    simp [getFullTag, h2]
  have hch : channelInterp c = none := by simp [channelInterp, h3, h4, h5, h6]
  refine ⟨?_, ?_, ?_, ?_⟩ <;> simp [logScalarRun, logImageRun, hg, hok, hch]

/-- Claim C9 witness: the three rejected malformed inputs at concrete
arguments, each leaving a concrete fresh logger unchanged. -/
theorem malformed_inputs_fail_cleanly_witness :
    startsWithSep ("/t") = true
  ∧ startsWithSep ("t") = false
  ∧ (5 : Nat) ≠ 1 ∧ (5 : Nat) ≠ 2 ∧ (5 : Nat) ≠ 3 ∧ (5 : Nat) ≠ 4
  ∧ (logScalarRun [] ("/t") 0 none (initLogger ("logs") none none)
      = CallResult.raised errAssert (initLogger ("logs") none none)
    ∧ logImageRun [] ("/t") (ImageArg.array 5 2 2 []) none (initLogger ("logs") none none)
      = CallResult.raised errAssert (initLogger ("logs") none none)
    ∧ logImageRun [] ("t") (ImageArg.array 5 2 2 []) none (initLogger ("logs") none none)
      = CallResult.raised errBadImage (initLogger ("logs") none none)
    ∧ logImageRun [] ("t") ImageArg.other none (initLogger ("logs") none none)
      = CallResult.raised errNoInterp (initLogger ("logs") none none)) :=
  ⟨by decide, by decide, by decide, by decide, by decide, by decide,
   malformed_inputs_fail_cleanly [] ("/t") ("t") 0 none (initLogger ("logs") none none)
     5 2 2 [] (by decide) (by decide) (by decide) (by decide) (by decide) (by decide)⟩

/-- Claim C9 counterexample: an *empty* tag — "malformed" per the claim — is
not rejected: `logScalar` with tag `""` returns normally and changes the
logger state (the batch gains an entry under the empty fully-qualified tag),
refuting "fails immediately ... and leaves the logger state unchanged". -/
theorem empty_tag_not_rejected :
    (logScalarRun [] ("") 0 none (initLogger ("logs") none none)).raisedQ = false
  ∧ (logScalarRun [] ("") 0 none (initLogger ("logs") none none)).state.values
      ≠ (initLogger ("logs") none none).values := by decide

/-- Claim C10: the tag scope stack is class-level thread-local state shared
by all logger instances — `self.__tls` name-mangles to the class attribute
`EventLogger.__tls`, one `threading.local()` for every instance, and
`NullEventLogger` inherits `tagscope`/`getFullTag` unchanged — so entering a
scope through any instance `i` changes the fully-qualified tag that any other
instance `j` (null variant included) resolves, for the duration of the
scope. -/
theorem tagscope_shared_across_instances (i j : Nat) (tc : ThreadCtx)
    (names : List String) (tag : String) (h : names.all validName = true) :
    tagscopeEnterOn i names tc = some { scopeStack := tc.scopeStack ++ names }
  ∧ getFullTagOn j { scopeStack := tc.scopeStack ++ names } tag
      = getFullTag (tc.scopeStack ++ names) tag
  ∧ tagscopeEnterOn 0 [("grp")] (ThreadCtx.mk []) = some (ThreadCtx.mk [("grp")])
  ∧ getFullTagOn 1 (ThreadCtx.mk [("grp")]) ("x") = some ("grp/x")
  ∧ getFullTagOn 1 (ThreadCtx.mk []) ("x") = some ("x")
  ∧ getFullTagOn 1 (ThreadCtx.mk [("grp")]) ("x") ≠ getFullTagOn 1 (ThreadCtx.mk []) ("x") := by
  refine ⟨?_, rfl, by decide, by decide, by decide, by decide⟩
  simp [tagscopeEnterOn, tagscopeEnter, h]

/-- Claim C10 witness: a concrete scope entered through instance 0 and
resolved through instance 1. -/
theorem tagscope_shared_across_instances_witness :
    ([("g")] : List String).all validName = true
  ∧ (tagscopeEnterOn 0 [("g")] (ThreadCtx.mk [])
      = some { scopeStack := ([] : List String) ++ [("g")] }
    ∧ getFullTagOn 1 { scopeStack := ([] : List String) ++ [("g")] } ("x")
      = getFullTag (([] : List String) ++ [("g")]) ("x")
    ∧ tagscopeEnterOn 0 [("grp")] (ThreadCtx.mk []) = some (ThreadCtx.mk [("grp")])
    ∧ getFullTagOn 1 (ThreadCtx.mk [("grp")]) ("x") = some ("grp/x")
    ∧ getFullTagOn 1 (ThreadCtx.mk []) ("x") = some ("x")
    ∧ getFullTagOn 1 (ThreadCtx.mk [("grp")]) ("x")
      ≠ getFullTagOn 1 (ThreadCtx.mk []) ("x")) :=
  ⟨by decide, tagscope_shared_across_instances 0 1 (ThreadCtx.mk []) [("g")] ("x") (by decide)⟩

end EvLog
